import Mathlib

/-!
Verification of the todo-rs task store and command dispatcher.

The Rust program (src/models.rs, src/database.rs, src/args.rs, src/main.rs,
src/io_utils.rs) persists tasks in a SQLite table

  CREATE TABLE IF NOT EXISTS tasks (
      id INTEGER PRIMARY KEY AUTOINCREMENT,
      description TEXT NOT NULL,
      done BOOLEAN NOT NULL DEFAULT 0,
      birth TEXT NOT NULL)

and exposes four operations: `Task::add`, `Task::list`, `Task::remove`,
`Task::mark_done`.  The embedding below models SQLite storage as a list of
dynamically typed rows (SQLite cells carry a storage class at run time, so a
cell is modelled by a sum of the classes the program can encounter) together
with the `sqlite_sequence` counter that AUTOINCREMENT uses to hand out ids.
-/

namespace Todo

/-- A SQLite storage cell.  The program itself only ever writes `integer` and
`text` cells, but SQLite does not enforce declared column types, so a store
opened by the program may hold any of these in any column; `Task::list`'s
per-row conversions (`row.get`) are fallible for exactly this reason.
(`REAL` and `BLOB` cells fail every conversion the program performs, just as
`null` does, so `null` stands in for all never-convertible classes.) -/
inductive SqlValue where
  | null
  | integer (i : Int)
  | text (s : String)
deriving DecidableEq, Repr

/-- rusqlite `row.get::<i64>`: succeeds only on an INTEGER cell. -/
def SqlValue.asInt : SqlValue → Option Int
  | .integer i => some i
  | _ => none

/-- rusqlite `row.get::<String>`: succeeds only on a TEXT cell. -/
def SqlValue.asText : SqlValue → Option String
  | .text s => some s
  | _ => none

/-- rusqlite `row.get::<bool>`: goes through `i64` and compares with 0,
so it succeeds only on an INTEGER cell and yields `i != 0`. -/
def SqlValue.asBool : SqlValue → Option Bool
  | .integer i => some (i != 0)
  | _ => none

/-- One stored row of the `tasks` table, in column order
`id, description, done, birth`. -/
structure RawRow where
  id : SqlValue
  description : SqlValue
  done : SqlValue
  birth : SqlValue
deriving DecidableEq, Repr

/-- The persistent store: the rows of the `tasks` table in storage order,
plus the `sqlite_sequence` counter backing `AUTOINCREMENT` (the largest id
ever assigned; 0 for a fresh table, so the first insert receives id 1). -/
structure Store where
  rows : List RawRow
  seq : Int
deriving DecidableEq, Repr

/-- A freshly created database: empty table, sequence counter at 0. -/
def Store.empty : Store := ⟨[], 0⟩

/-- SQLite `=` between a stored cell and an i64 parameter: equal only when
the cell is an INTEGER with the same value (cells of different storage
classes never compare equal, and NULL comparisons are not true). -/
def sqlIdEq (v : SqlValue) (id : Int) : Bool :=
  match v with
  | .integer i => i == id
  | _ => false

/-- SQLite `done = 0` for a stored cell. -/
def sqlEqZero : SqlValue → Bool
  | .integer i => i == 0
  | _ => false

/-! ### Timestamps

`Task::add` stores `Local::now().naive_local().format("%Y-%m-%d %H:%M:%S")`
and `Task::list` parses the stored text back with
`NaiveDateTime::parse_from_str(_, "%Y-%m-%d %H:%M:%S")`.  The clock always
produces a calendar-valid datetime with a four-digit year, which both
formats and re-parses as the canonical zero-padded 19-character form
`YYYY-MM-DD HH:MM:SS`; the model adopts that canonical form (chrono's parser
additionally tolerates some non-canonical digit widths, and leap seconds,
which the program never writes). -/

structure DateTime where
  year : Nat
  month : Nat
  day : Nat
  hour : Nat
  minute : Nat
  second : Nat
deriving DecidableEq, Repr

def isLeap (y : Nat) : Bool :=
  y % 4 == 0 && (y % 100 != 0 || y % 400 == 0)

def daysInMonth (y m : Nat) : Nat :=
  if m = 2 then (if isLeap y then 29 else 28)
  else if m = 4 ∨ m = 6 ∨ m = 9 ∨ m = 11 then 30
  else 31

/-- Calendar validity as chrono enforces it when parsing, restricted to the
four-digit years the format round-trips. -/
def DateTime.Valid (t : DateTime) : Prop :=
  1 ≤ t.month ∧ t.month ≤ 12 ∧ 1 ≤ t.day ∧ t.day ≤ daysInMonth t.year t.month ∧
  t.hour ≤ 23 ∧ t.minute ≤ 59 ∧ t.second ≤ 59 ∧ t.year ≤ 9999

instance (t : DateTime) : Decidable t.Valid := by
  unfold DateTime.Valid; infer_instance

/-- The decimal digit character for `d` (used with `d < 10`). -/
def dc (d : Nat) : Char := Char.ofNat (48 + d)

/-- Two-digit zero-padded rendering, as chrono's `%m %d %H %M %S` produce
for their in-range values. -/
def pad2 (n : Nat) : List Char := [dc (n / 10 % 10), dc (n % 10)]

/-- Four-digit zero-padded rendering, as chrono's `%Y` produces for
years 0..9999. -/
def pad4 (n : Nat) : List Char :=
  [dc (n / 1000 % 10), dc (n / 100 % 10), dc (n / 10 % 10), dc (n % 10)]

/-- `format("%Y-%m-%d %H:%M:%S")` on the character level. -/
def formatBirthChars (t : DateTime) : List Char :=
  pad4 t.year ++ ['-'] ++ pad2 t.month ++ ['-'] ++ pad2 t.day ++ [' '] ++
  pad2 t.hour ++ [':'] ++ pad2 t.minute ++ [':'] ++ pad2 t.second

def formatBirth (t : DateTime) : String := String.mk (formatBirthChars t)

def digitVal (c : Char) : Option Nat :=
  if c.isDigit then some (c.toNat - 48) else none

def read2 (a b : Char) : Option Nat := do
  let x ← digitVal a
  let y ← digitVal b
  pure (10 * x + y)

def read4 (a b c d : Char) : Option Nat := do
  let x ← digitVal a
  let y ← digitVal b
  let z ← digitVal c
  let w ← digitVal d
  pure (1000 * x + 100 * y + 10 * z + w)

/-- `NaiveDateTime::parse_from_str(s, "%Y-%m-%d %H:%M:%S")` on the character
level: the whole input must match the pattern, and the fields must form a
real calendar date and time (chrono rejects out-of-range fields such as
month 13 or Feb 30). -/
def parseBirthChars : List Char → Option DateTime
  | [y1, y2, y3, y4, '-', m1, m2, '-', d1, d2, ' ',
     h1, h2, ':', n1, n2, ':', s1, s2] => do
      let y ← read4 y1 y2 y3 y4
      let mo ← read2 m1 m2
      let d ← read2 d1 d2
      let h ← read2 h1 h2
      let mi ← read2 n1 n2
      let s ← read2 s1 s2
      if 1 ≤ mo ∧ mo ≤ 12 ∧ 1 ≤ d ∧ d ≤ daysInMonth y mo ∧
          h ≤ 23 ∧ mi ≤ 59 ∧ s ≤ 59 then
        some ⟨y, mo, d, h, mi, s⟩
      else none
  | _ => none

def parseBirth (s : String) : Option DateTime := parseBirthChars s.data

/-! ### The Task model and the Store operations (src/models.rs) -/

/-- `struct Task` of src/models.rs: the in-memory value `Task::list`
produces per row. -/
structure Task where
  id : Int
  description : String
  done : Bool
  birth : DateTime
deriving DecidableEq, Repr

/-- `Task::create_default`: `CREATE TABLE IF NOT EXISTS` — idempotent,
leaves an existing table untouched. -/
def Task.create_default (s : Store) : Store := s

/-- `Task::add`: formats the current local time, executes
`INSERT INTO tasks (description, done, birth) VALUES (?1, 0, ?2)` and
returns `last_insert_rowid()`.  AUTOINCREMENT assigns one more than the
largest id ever used (the `sqlite_sequence` counter `seq`). -/
def Task.add (s : Store) (description : String) (now : DateTime) :
    Store × Int :=
  let birth_str := formatBirth now
  let newId := s.seq + 1
  (⟨s.rows ++ [⟨.integer newId, .text description, .integer 0, .text birth_str⟩],
    newId⟩, newId)

/-- The per-row closure of `Task::list`'s `query_map`: fetch the birth text
(column 3) first, parse it, then convert id, description and done; any
failure makes the whole row fail. -/
def rowToTask (r : RawRow) : Option Task := do
  let dateStr ← r.birth.asText
  let parsed ← parseBirth dateStr
  let id ← r.id.asInt
  let description ← r.description.asText
  let done ← r.done.asBool
  pure ⟨id, description, done, parsed⟩

/-- `Task::list`: `SELECT id, description, done, birth FROM tasks` in
storage order, then `filter_map(Result::ok)` — every row whose conversion
failed is silently dropped.  (Statement preparation and query errors are
connection-level failures outside this state model; the row-processing
stage itself never fails the call.) -/
def Task.list (s : Store) : List Task :=
  s.rows.filterMap rowToTask

/-- `Task::remove`: `DELETE FROM tasks WHERE id = ?1`; returns
`rows_affected > 0`. -/
def Task.remove (s : Store) (id : Int) : Store × Bool :=
  let affected := s.rows.countP (fun r => sqlIdEq r.id id)
  (⟨s.rows.filter (fun r => !sqlIdEq r.id id), s.seq⟩, affected > 0)

/-- The WHERE clause of `UPDATE_TASK_DONE`: `id = ?1 AND done = 0`. -/
def matchNotDone (r : RawRow) (id : Int) : Bool :=
  sqlIdEq r.id id && sqlEqZero r.done

/-- `Task::mark_done`: `UPDATE tasks SET done = 1 WHERE id = ?1 AND
done = 0`; returns `rows_affected > 0`. -/
def Task.mark_done (s : Store) (id : Int) : Store × Bool :=
  let affected := s.rows.countP (fun r => matchNotDone r id)
  (⟨s.rows.map (fun r =>
      if matchNotDone r id then { r with done := .integer 1 } else r),
    s.seq⟩, affected > 0)

/-! ### Command dispatcher (src/args.rs, src/database.rs) -/

/-- `enum Commands` of src/args.rs.  clap only checks that the positional
arguments are present and that ids parse as i64; the description may be any
string (there is no non-empty validation). -/
inductive Commands where
  | add (description : String)
  | list
  | remove (id : Int)
  | done (id : Int)
deriving DecidableEq, Repr

/-- Left-aligned space padding, Rust's `{:<w}` for strings that fit. -/
def padTo (w : Nat) (s : String) : String :=
  s ++ String.mk (List.replicate (w - s.length) ' ')

/-- One rendered row of the List table. -/
def renderTask (t : Task) : String :=
  padTo 8 (toString t.id) ++ " | " ++
  padTo 8 (if t.done then "true" else "false") ++ " | " ++
  padTo 19 (formatBirth t.birth) ++ " | " ++ t.description

/-- `handle_db_operations` of src/database.rs: open the store, ensure the
schema (a no-op on the state when the table exists), run exactly one Store
operation for the given command, and report.  Returns the updated store and
the lines printed to stdout. -/
def handle_db_operations (s : Store) (command : Commands) (now : DateTime) :
    Store × List String :=
  let s := Task.create_default s
  match command with
  | .add description =>
      let (s', id) := Task.add s description now
      (s', [s!"Task added successfully with id: {id}"])
  | .list =>
      let tasks := Task.list s
      if tasks.isEmpty then (s, ["No tasks found"])
      else
        (s, (padTo 8 "ID" ++ " | " ++ padTo 8 "DONE" ++ " | " ++
             padTo 19 "BIRTH" ++ " | DESCRIPTION") ::
            String.mk (List.replicate 60 '-') ::
            tasks.map renderTask)
  | .remove id =>
      let (s', removed) := Task.remove s id
      (s', [if removed then s!"Task {id} removed!"
            else s!"No task found with id: {id}"])
  | .done id =>
      let (s', updated) := Task.mark_done s id
      (s', [if updated then s!"Task {id} marked as done!"
            else s!"Task {id} already completed or doesn't exist."])

/-! ### Entry flow (src/main.rs, src/io_utils.rs) -/

/-- Rust `char::to_ascii_uppercase`: maps a..z to A..Z, all else fixed. -/
def asciiUpper (c : Char) : Char :=
  if 'a' ≤ c ∧ c ≤ 'z' then Char.ofNat (c.toNat - 32) else c

/-- Whitespace as `str::trim` strips it from a stdin line (the line only
ever carries ASCII whitespace: spaces, tabs and the line terminator). -/
def isWs (c : Char) : Bool :=
  c = ' ' ∨ c = '\t' ∨ c = '\n' ∨ c = '\r'

/-- Rust `str::trim` on the character level. -/
def trimChars (cs : List Char) : List Char :=
  ((cs.dropWhile isWs).reverse.dropWhile isWs).reverse

/-- One round of `ask_user_confirmation`'s match:
`input.trim().to_ascii_uppercase()` compared against `"Y"` and `"N"`. -/
def interpretAnswer (line : String) : Option Bool :=
  match (trimChars line.data).map asciiUpper with
  | ['Y'] => some true
  | ['N'] => some false
  | _ => none

/-- `ask_user_confirmation` over the queued stdin lines: loop until a line
answers Y or N; with no such line the real loop never returns (`none`). -/
def ask_user_confirmation : List String → Option Bool
  | [] => none
  | line :: rest =>
      match interpretAnswer line with
      | some b => some b
      | none => ask_user_confirmation rest

/-- Outcome of one `run` of the program (src/main.rs), for runs on which
the storage layer itself does not fail. -/
structure RunResult where
  store : Store
  output : List String
  dbCreated : Bool
  ranCommand : Bool
deriving DecidableEq, Repr

/-- `run` of src/main.rs: when the database file is missing, prompt; on Y
create it (an empty store) and dispatch, on N print a farewell and return
`Ok(())` without touching any store; when the file exists, dispatch
directly.  `none` models the prompt looping forever on exhausted input.
(The prompt text itself and the config-directory checks print nothing
relevant to the store and are elided from `output`.) -/
def run (dbPath : String) (dbExists : Bool) (stdin : List String)
    (command : Commands) (s : Store) (now : DateTime) : Option RunResult :=
  if dbExists then
    let (s', out) := handle_db_operations s command now
    some ⟨s', out, false, true⟩
  else
    match ask_user_confirmation stdin with
    | some true =>
        let (s', out) := handle_db_operations Store.empty command now
        some ⟨s', (s!"Database not found at {dbPath}") ::
                  (s!"Database created at {dbPath}") :: out, true, true⟩
    | some false =>
        some ⟨s, [s!"Database not found at {dbPath}", "Goodbye!"], false, false⟩
    | none => none

/-! ### Operation sequences (for lifetime invariants) -/

/-- One store-mutating command, as dispatched by `handle_db_operations`. -/
inductive Op where
  | add (description : String) (now : DateTime)
  | remove (id : Int)
  | markDone (id : Int)
deriving DecidableEq, Repr

def applyOp (s : Store) : Op → Store
  | .add d now => (Task.add s d now).1
  | .remove id => (Task.remove s id).1
  | .markDone id => (Task.mark_done s id).1

/-- Run a sequence of operations, collecting the ids returned by the
inserts in order. -/
def runOps (s : Store) : List Op → Store × List Int
  | [] => (s, [])
  | op :: ops =>
      match op with
      | .add d now =>
          let (s', id) := Task.add s d now
          let (s'', ids) := runOps s' ops
          (s'', id :: ids)
      | _ =>
          runOps (applyOp s op) ops

/-! ### Named predicates and concrete fixtures used by the theorems -/

/-- A row is well-typed when every `row.get` conversion `Task::list`
performs succeeds on it (id INTEGER, description TEXT, done INTEGER,
birth TEXT). -/
def RawRow.typedB (r : RawRow) : Bool :=
  r.id.asInt.isSome && r.description.asText.isSome &&
  r.done.asBool.isSome && r.birth.asText.isSome

/-- The birth cell is TEXT and parses in the expected format. -/
def RawRow.birthOk (r : RawRow) : Bool :=
  (r.birth.asText.bind parseBirth).isSome

/-- Invariant of every store state the program itself produces: every row
id is an INTEGER no larger than the AUTOINCREMENT counter, and row ids are
pairwise distinct (`id INTEGER PRIMARY KEY`). -/
def Store.Wf (s : Store) : Prop :=
  (∀ r ∈ s.rows, ∃ i, r.id = SqlValue.integer i ∧ i ≤ s.seq) ∧
  s.rows.Pairwise (fun a b => a.id ≠ b.id)

def goodRow : RawRow :=
  ⟨.integer 1, .text "well formed", .integer 0, .text "2024-12-07 14:30:15"⟩

def badRow : RawRow :=
  ⟨.integer 2, .text "corrupted", .integer 0, .text "not a timestamp"⟩

def mixedStore : Store := ⟨[goodRow, badRow], 2⟩

def typeBrokenStore : Store :=
  ⟨[goodRow,
    ⟨.text "not an id", .text "bad id", .integer 0, .text "2024-12-07 14:30:15"⟩,
    ⟨.integer 3, .null, .integer 0, .text "2024-12-07 14:30:15"⟩,
    ⟨.integer 4, .text "bad done", .text "yes", .text "2024-12-07 14:30:15"⟩], 4⟩

/-- A concrete database path for closed statements about `run`. -/
def demoPath : String := "/home/user/.config/todo-rs/tasks.db"

/-- A two-row store: task 1 not yet done, task 2 already done. -/
def demoStore : Store :=
  ⟨[⟨.integer 1, .text "open task", .integer 0, .text "2024-12-07 14:30:15"⟩,
    ⟨.integer 2, .text "closed task", .integer 1, .text "2024-12-07 14:30:16"⟩], 2⟩

/-! ### Timestamp round-trip -/

theorem digitVal_dc (d : Nat) (h : d < 10) : digitVal (dc d) = some d := by
  interval_cases d <;> decide

theorem read2_pad2 (n : Nat) (h : n ≤ 99) :
    read2 (dc (n / 10 % 10)) (dc (n % 10)) = some n := by
  rw [read2, digitVal_dc _ (Nat.mod_lt _ (by norm_num)),
    digitVal_dc _ (Nat.mod_lt _ (by norm_num))]
  simp only [Option.bind_eq_bind, Option.some_bind, Option.pure_def,
    Option.some.injEq]
  omega

theorem read4_pad4 (n : Nat) (h : n ≤ 9999) :
    read4 (dc (n / 1000 % 10)) (dc (n / 100 % 10)) (dc (n / 10 % 10))
      (dc (n % 10)) = some n := by
  rw [read4, digitVal_dc _ (Nat.mod_lt _ (by norm_num)),
    digitVal_dc _ (Nat.mod_lt _ (by norm_num)),
    digitVal_dc _ (Nat.mod_lt _ (by norm_num)),
    digitVal_dc _ (Nat.mod_lt _ (by norm_num))]
  simp only [Option.bind_eq_bind, Option.some_bind, Option.pure_def,
    Option.some.injEq]
  omega

theorem daysInMonth_le (y m : Nat) : daysInMonth y m ≤ 31 := by
  unfold daysInMonth
  split <;> [split <;> omega; split <;> omega]

/-- A timestamp written by `Task::add`'s formatter parses back to the same
value under `Task::list`'s parser. -/
theorem parse_format_roundtrip (t : DateTime) (h : t.Valid) :
    parseBirth (formatBirth t) = some t := by
  obtain ⟨h1, h2, h3, h4, h5, h6, h7, h8⟩ := h
  have hd99 : t.day ≤ 99 := le_trans h4 (le_trans (daysInMonth_le _ _) (by omega))
  show parseBirthChars (formatBirthChars t) = some t
  simp only [formatBirthChars, pad4, pad2, List.cons_append, List.nil_append]
  rw [parseBirthChars]
  rw [read4_pad4 _ h8, read2_pad2 _ (by omega), read2_pad2 _ (by omega),
    read2_pad2 _ (by omega), read2_pad2 _ (by omega), read2_pad2 _ (by omega)]
  simp only [Option.bind_eq_bind, Option.some_bind]
  rw [if_pos ⟨h1, h2, h3, h4, h5, h6, h7⟩]

/-! ### Row conversion lemmas -/

theorem RawRow.typedB_iff (r : RawRow) :
    r.typedB = true ↔
      ∃ i d b bs, r = ⟨.integer i, .text d, .integer b, .text bs⟩ := by
  obtain ⟨id, de, dn, bi⟩ := r
  cases id <;> cases de <;> cases dn <;> cases bi <;>
    simp [RawRow.typedB, SqlValue.asInt, SqlValue.asText, SqlValue.asBool]

theorem rowToTask_mk (i : Int) (d : String) (b : Int) (bs : String) :
    rowToTask ⟨.integer i, .text d, .integer b, .text bs⟩ =
      (parseBirth bs).map (fun dt => ⟨i, d, b != 0, dt⟩) := by
  cases hp : parseBirth bs <;>
    simp [rowToTask, SqlValue.asText, SqlValue.asInt, SqlValue.asBool, hp]

theorem rowToTask_isSome_eq_birthOk (r : RawRow) (ht : r.typedB = true) :
    (rowToTask r).isSome = r.birthOk := by
  obtain ⟨i, d, b, bs, rfl⟩ := (RawRow.typedB_iff r).mp ht
  cases hp : parseBirth bs <;>
    simp [rowToTask_mk, RawRow.birthOk, SqlValue.asText, hp]

/-- Any failing per-row conversion — wrongly typed id, description or done,
non-text birth, or unparseable birth text — makes the whole row convert to
`none`. -/
theorem rowToTask_eq_none (r : RawRow)
    (hfail : r.id.asInt = none ∨ r.description.asText = none ∨
      r.done.asBool = none ∨ r.birth.asText.bind parseBirth = none) :
    rowToTask r = none := by
  obtain ⟨id, de, dn, bi⟩ := r
  cases bi with
  | null => simp [rowToTask, SqlValue.asText]
  | integer i => simp [rowToTask, SqlValue.asText]
  | text bs =>
      cases hp : parseBirth bs with
      | none => simp [rowToTask, SqlValue.asText, hp]
      | some p =>
          simp only [SqlValue.asText, Option.some_bind] at hfail
          rcases hfail with h | h | h | h
          · simp [rowToTask, SqlValue.asText, hp, h]
          · simp [rowToTask, SqlValue.asText, hp, h]
          · simp [rowToTask, SqlValue.asText, hp, h]
          · rw [hp] at h; exact absurd h (by simp)

theorem filterMap_filter_isSome {α β : Type} (f : α → Option β)
    (l : List α) :
    (l.filter (fun x => (f x).isSome)).filterMap f = l.filterMap f := by
  induction l with
  | nil => rfl
  | cons a l ih =>
      cases hf : f a <;>
        simp [List.filter_cons, List.filterMap_cons, hf, ih]

theorem length_filterMap_isSome {α β : Type} (f : α → Option β)
    (l : List α) :
    (l.filterMap f).length = (l.filter (fun x => (f x).isSome)).length := by
  induction l with
  | nil => rfl
  | cons a l ih =>
      cases hf : f a <;>
        simp [List.filter_cons, List.filterMap_cons, hf, ih]

/-! ### Claims about listing -/

/-- C1.  On a store of well-typed rows, some with parseable birth text and
some without, `Task::list` returns exactly the tasks of the parseable rows
(one task per such row, in order), silently excluding every row whose
timestamp fails to parse; the row-processing stage never fails the call. -/
theorem list_skips_corrupt_rows (s : Store)
    (ht : ∀ r ∈ s.rows, r.typedB = true)
    (hgood : ∃ r ∈ s.rows, r.birthOk = true)
    (hbad : ∃ r ∈ s.rows, r.birthOk = false) :
    Task.list s = (s.rows.filter (fun r => r.birthOk)).filterMap rowToTask ∧
    (Task.list s).length = (s.rows.filter (fun r => r.birthOk)).length := by
  have hfe : s.rows.filter (fun r => r.birthOk) =
      s.rows.filter (fun r => (rowToTask r).isSome) :=
    List.filter_congr (fun r hr => (rowToTask_isSome_eq_birthOk r (ht r hr)).symm)
  refine ⟨?_, ?_⟩
  · rw [hfe, Task.list, filterMap_filter_isSome]
  · rw [hfe, Task.list, length_filterMap_isSome]

/-- Witness for C1 at a concrete two-row store with one corrupt birth. -/
theorem list_skips_corrupt_rows_witness :
    Task.list mixedStore =
      (mixedStore.rows.filter (fun r => r.birthOk)).filterMap rowToTask ∧
    (Task.list mixedStore).length =
      (mixedStore.rows.filter (fun r => r.birthOk)).length :=
  list_skips_corrupt_rows mixedStore (by decide)
    ⟨goodRow, by decide, by decide⟩ ⟨badRow, by decide, by decide⟩

/-- C9.  `Task::list` discards, without failing the call, every row on
which any per-row conversion fails — a wrongly typed id, description or
done column just like an unparseable birth — and what remains is exactly
one task per fully convertible row, in order. -/
theorem list_skips_any_conversion_failure (s : Store) :
    (∀ r ∈ s.rows,
      (r.id.asInt = none ∨ r.description.asText = none ∨
        r.done.asBool = none ∨ r.birth.asText.bind parseBirth = none) →
      rowToTask r = none) ∧
    Task.list s =
      (s.rows.filter (fun r => (rowToTask r).isSome)).filterMap rowToTask ∧
    (Task.list s).length =
      (s.rows.filter (fun r => (rowToTask r).isSome)).length := by
  refine ⟨fun r _ hfail => rowToTask_eq_none r hfail, ?_, ?_⟩
  · rw [Task.list, filterMap_filter_isSome]
  · rw [Task.list, length_filterMap_isSome]

/-- Witness for C9: a store whose rows break each conversion in turn is
listed as just the one convertible row. -/
theorem list_skips_any_conversion_failure_witness :
    Task.list typeBrokenStore =
      (typeBrokenStore.rows.filter
        (fun r => (rowToTask r).isSome)).filterMap rowToTask ∧
    (Task.list typeBrokenStore).length =
      (typeBrokenStore.rows.filter
        (fun r => (rowToTask r).isSome)).length :=
  ⟨(list_skips_any_conversion_failure typeBrokenStore).2.1,
   (list_skips_any_conversion_failure typeBrokenStore).2.2⟩

/-- C4.  `Task::add` appends exactly one row — done stored as 0, birth the
formatted current local time — and returns the id AUTOINCREMENT assigned;
on an empty store the subsequent `Task::list` yields exactly one task with
that description, `done = false`, and the birth text parsed back. -/
theorem add_inserts_and_roundtrips (s : Store) (d : String) (now : DateTime)
    (hv : now.Valid) :
    (Task.add s d now).1.rows =
      s.rows ++ [⟨.integer (s.seq + 1), .text d, .integer 0,
        .text (formatBirth now)⟩] ∧
    (Task.add s d now).2 = s.seq + 1 ∧
    Task.list (Task.add Store.empty d now).1 =
      [⟨(Task.add Store.empty d now).2, d, false, now⟩] := by
  refine ⟨rfl, rfl, ?_⟩
  simp [Task.list, Task.add, Store.empty, rowToTask_mk,
    parse_format_roundtrip now hv]

/-- Witness for C4 at a concrete description and clock reading. -/
theorem add_inserts_and_roundtrips_witness :
    (Task.add Store.empty "buy milk" ⟨2024, 12, 7, 14, 30, 15⟩).1.rows =
      Store.empty.rows ++ [⟨.integer (Store.empty.seq + 1), .text "buy milk",
        .integer 0, .text (formatBirth ⟨2024, 12, 7, 14, 30, 15⟩)⟩] ∧
    (Task.add Store.empty "buy milk" ⟨2024, 12, 7, 14, 30, 15⟩).2 =
      Store.empty.seq + 1 ∧
    Task.list (Task.add Store.empty "buy milk" ⟨2024, 12, 7, 14, 30, 15⟩).1 =
      [⟨(Task.add Store.empty "buy milk" ⟨2024, 12, 7, 14, 30, 15⟩).2,
        "buy milk", false, ⟨2024, 12, 7, 14, 30, 15⟩⟩] :=
  add_inserts_and_roundtrips Store.empty "buy milk" ⟨2024, 12, 7, 14, 30, 15⟩
    (by decide)

/-! ### Inversion lemmas for cells and rows -/

theorem SqlValue.asText_eq_some (v : SqlValue) (s : String)
    (h : v.asText = some s) : v = .text s := by
  cases v <;> simp_all [SqlValue.asText]

theorem SqlValue.asInt_eq_some (v : SqlValue) (i : Int)
    (h : v.asInt = some i) : v = .integer i := by
  cases v <;> simp_all [SqlValue.asInt]

theorem SqlValue.asBool_eq_some (v : SqlValue) (b : Bool)
    (h : v.asBool = some b) : ∃ i, v = .integer i ∧ (i != 0) = b := by
  cases v <;> simp_all [SqlValue.asBool]

theorem sqlIdEq_eq_true (v : SqlValue) (id : Int) :
    sqlIdEq v id = true ↔ v = .integer id := by
  cases v <;> simp [sqlIdEq]

theorem sqlEqZero_eq_true (v : SqlValue) :
    sqlEqZero v = true ↔ v = .integer 0 := by
  cases v <;> simp [sqlEqZero]

/-- Inversion: a successfully converted row is fully typed and its fields
are exactly the task's fields. -/
theorem rowToTask_some_inv (r : RawRow) (t : Task) (h : rowToTask r = some t) :
    ∃ b bs, r = ⟨.integer t.id, .text t.description, .integer b, .text bs⟩ ∧
      parseBirth bs = some t.birth ∧ (b != 0) = t.done := by
  obtain ⟨id0, de0, dn0, bi0⟩ := r
  simp only [rowToTask, Option.bind_eq_bind, Option.bind_eq_some,
    Option.pure_def, Option.some.injEq] at h
  obtain ⟨bs, hbs, p, hp, i, hi, d, hd, b, hb, ht⟩ := h
  obtain ⟨ib, hib, hbv⟩ := SqlValue.asBool_eq_some _ _ hb
  subst ht
  exact ⟨ib, bs,
    by rw [SqlValue.asText_eq_some _ _ hbs, SqlValue.asInt_eq_some _ _ hi,
        SqlValue.asText_eq_some _ _ hd, hib],
    hp, hbv⟩

/-! ### Claims about MarkDone and Delete -/

/-- C2.  `Task::mark_done` returns true exactly when some row has the given
id and is currently stored as not done; it flips exactly those rows to
done = 1 and leaves every other row unchanged; a false return (with no
error) covers both "no such id" and "already done", which the return value
alone does not distinguish. -/
theorem mark_done_updates_iff (s : Store) (id : Int) :
    ((Task.mark_done s id).2 = true ↔
      ∃ r ∈ s.rows, sqlIdEq r.id id = true ∧ sqlEqZero r.done = true) ∧
    (Task.mark_done s id).1.rows =
      s.rows.map (fun r =>
        if sqlIdEq r.id id && sqlEqZero r.done then
          { r with done := .integer 1 } else r) ∧
    ((Task.mark_done s id).2 = false →
      ∀ r ∈ s.rows, sqlIdEq r.id id = true → sqlEqZero r.done = false) := by
  have hiff : (Task.mark_done s id).2 = true ↔
      ∃ r ∈ s.rows, sqlIdEq r.id id = true ∧ sqlEqZero r.done = true := by
    simp [Task.mark_done, matchNotDone, List.countP_pos_iff, Bool.and_eq_true]
  refine ⟨hiff, rfl, fun hfalse r hr hid => ?_⟩
  cases h2 : sqlEqZero r.done
  · rfl
  · have := hiff.mpr ⟨r, hr, hid, h2⟩
    rw [hfalse] at this
    exact absurd this (by simp)

/-- Witness for C2: on `demoStore`, MarkDone 1 updates (open task),
MarkDone 2 does not (already done), MarkDone 99 does not (absent). -/
theorem mark_done_updates_iff_witness :
    (Task.mark_done demoStore 1).2 = true ∧
    (Task.mark_done demoStore 2).2 = false ∧
    (Task.mark_done demoStore 99).2 = false :=
  ⟨(mark_done_updates_iff demoStore 1).1.mpr
      ⟨⟨.integer 1, .text "open task", .integer 0, .text "2024-12-07 14:30:15"⟩,
        by decide, by decide, by decide⟩,
   by decide, by decide⟩

/-- C3.  `Task::remove` deletes exactly the rows carrying the given id and
returns true exactly when such a row existed (false on "not found", without
error); after an insert returning id K, removing K succeeds, the listing of
the result contains no task with id K, and removing K again returns
false. -/
theorem remove_semantics (s : Store) (id : Int) (d : String) (now : DateTime) :
    ((Task.remove s id).2 = true ↔ ∃ r ∈ s.rows, sqlIdEq r.id id = true) ∧
    (Task.remove s id).1.rows = s.rows.filter (fun r => !sqlIdEq r.id id) ∧
    ((Task.remove (Task.add s d now).1 (Task.add s d now).2).2 = true ∧
     (∀ t ∈ Task.list
        (Task.remove (Task.add s d now).1 (Task.add s d now).2).1,
        t.id ≠ (Task.add s d now).2) ∧
     (Task.remove
        (Task.remove (Task.add s d now).1 (Task.add s d now).2).1
        (Task.add s d now).2).2 = false) := by
  have hiff : ∀ s' : Store, ∀ id' : Int,
      (Task.remove s' id').2 = true ↔ ∃ r ∈ s'.rows, sqlIdEq r.id id' = true :=
    fun s' id' => by simp [Task.remove, List.countP_pos_iff]
  refine ⟨hiff s id, rfl, ?_, ?_, ?_⟩
  · exact (hiff _ _).mpr
      ⟨⟨.integer (s.seq + 1), .text d, .integer 0, .text (formatBirth now)⟩,
        by simp [Task.add], by simp [sqlIdEq, Task.add]⟩
  · intro t ht heq
    have hrw : (Task.remove (Task.add s d now).1 (Task.add s d now).2).1.rows =
        (Task.add s d now).1.rows.filter
          (fun r => !sqlIdEq r.id (Task.add s d now).2) := rfl
    rw [Task.list, hrw] at ht
    obtain ⟨r, hr, hrt⟩ := List.mem_filterMap.mp ht
    obtain ⟨b, bs, rfl, -, -⟩ := rowToTask_some_inv r t hrt
    have hpa := List.of_mem_filter hr
    rw [heq] at hpa
    simp [sqlIdEq] at hpa
  · cases h : (Task.remove
        (Task.remove (Task.add s d now).1 (Task.add s d now).2).1
        (Task.add s d now).2).2 with
    | false => rfl
    | true =>
        obtain ⟨r, hr, hid⟩ := (hiff _ _).mp h
        have hr' : r ∈ (Task.add s d now).1.rows.filter
            (fun x => !sqlIdEq x.id (Task.add s d now).2) := hr
        have hpa := List.of_mem_filter hr'
        rw [hid] at hpa
        simp at hpa

/-- Witness for C3 on `demoStore` with a fresh insert. -/
theorem remove_semantics_witness :
    (Task.remove demoStore 1).2 = true ∧
    (Task.remove
      (Task.remove (Task.add demoStore "temp" ⟨2024, 12, 7, 14, 30, 17⟩).1
        (Task.add demoStore "temp" ⟨2024, 12, 7, 14, 30, 17⟩).2).1
      (Task.add demoStore "temp" ⟨2024, 12, 7, 14, 30, 17⟩).2).2 = false :=
  ⟨(remove_semantics demoStore 1 "x" ⟨2024, 12, 7, 14, 30, 17⟩).1.mpr
      ⟨⟨.integer 1, .text "open task", .integer 0, .text "2024-12-07 14:30:15"⟩,
        by decide, by decide⟩,
   (remove_semantics demoStore 3 "temp" ⟨2024, 12, 7, 14, 30, 17⟩).2.2.2.2⟩

/-! ### Row provenance across operations -/

/-- Every row of a successor state is an unchanged old row, the freshly
inserted row (done stored as 0), or an old not-done row flipped to done = 1.
In particular no operation ever turns a done row back into a not-done one,
and no operation rewrites a description. -/
theorem applyOp_row_origin (s : Store) (op : Op) (r' : RawRow)
    (h : r' ∈ (applyOp s op).rows) :
    r' ∈ s.rows ∨
    (∃ d now, op = .add d now ∧
      r' = ⟨.integer (s.seq + 1), .text d, .integer 0,
        .text (formatBirth now)⟩) ∨
    (∃ r ∈ s.rows, r.done = .integer 0 ∧
      r' = { r with done := .integer 1 }) := by
  cases op with
  | add d now =>
      have h' : r' ∈ s.rows ++
          [⟨.integer (s.seq + 1), .text d, .integer 0,
            .text (formatBirth now)⟩] := h
      rcases List.mem_append.mp h' with hm | hm
      · exact .inl hm
      · exact .inr (.inl ⟨d, now, rfl, List.mem_singleton.mp hm⟩)
  | remove i =>
      have h' : r' ∈ s.rows.filter (fun x => !sqlIdEq x.id i) := h
      exact .inl (List.mem_of_mem_filter h')
  | markDone i =>
      have h' : r' ∈ s.rows.map (fun r =>
          if matchNotDone r i then { r with done := .integer 1 } else r) := h
      obtain ⟨r, hr, heq⟩ := List.mem_map.mp h'
      by_cases hm : matchNotDone r i = true
      · have hm2 : sqlIdEq r.id i = true ∧ sqlEqZero r.done = true := by
          simpa [matchNotDone] using hm
        rw [if_pos hm] at heq
        exact .inr (.inr ⟨r, hr,
          (sqlEqZero_eq_true r.done).mp hm2.2, heq.symm⟩)
      · rw [if_neg hm] at heq
        exact .inl (heq ▸ hr)

/-- Rows that do not satisfy the WHERE clause pass through `mark_done`
untouched, and after one successful pass nothing matches again. -/
theorem mark_done_no_match (s : Store) (id : Int)
    (h : ∀ r ∈ s.rows, matchNotDone r id = false) :
    (Task.mark_done s id).2 = false ∧ (Task.mark_done s id).1 = s := by
  refine ⟨?_, ?_⟩
  · simp only [Task.mark_done, decide_eq_false_iff_not, Nat.not_lt,
      Nat.le_zero, List.countP_eq_zero]
    intro r hr
    simp [h r hr]
  · cases s with
  | mk rows seq =>
      simp only [Task.mark_done, Store.mk.injEq, and_true]
      rw [List.map_congr_left (fun r hr => if_neg (by simp [h r hr]))]
      exact List.map_id rows

/-! ### C7: done is monotone and idempotent on repeat -/

/-- C7.  If some row carries the given id and is stored not-done (and every
row with that id is not-done, as the PRIMARY KEY guarantees for program
stores), then `mark_done` returns true and every row with that id is now
stored done = 1; running `mark_done` again returns false and changes
nothing; and across arbitrary operations a row's done cell is never
rewritten from done back to not-done. -/
theorem done_monotone_idempotent (s : Store) (id : Int)
    (hex : ∃ r ∈ s.rows, matchNotDone r id = true)
    (hall : ∀ r ∈ s.rows, sqlIdEq r.id id = true → sqlEqZero r.done = true) :
    (Task.mark_done s id).2 = true ∧
    (∀ r ∈ (Task.mark_done s id).1.rows,
      sqlIdEq r.id id = true → r.done = SqlValue.integer 1) ∧
    (Task.mark_done (Task.mark_done s id).1 id).2 = false ∧
    (Task.mark_done (Task.mark_done s id).1 id).1 = (Task.mark_done s id).1 ∧
    (∀ s' : Store, ∀ op : Op, ∀ r' ∈ (applyOp s' op).rows,
      r' ∈ s'.rows ∨
      (∃ d now, op = .add d now ∧
        r' = ⟨.integer (s'.seq + 1), .text d, .integer 0,
          .text (formatBirth now)⟩) ∨
      (∃ r ∈ s'.rows, r.done = .integer 0 ∧
        r' = { r with done := .integer 1 })) := by
  have hrows : (Task.mark_done s id).1.rows = s.rows.map (fun r =>
      if matchNotDone r id then { r with done := .integer 1 } else r) := rfl
  have hnomatch : ∀ r ∈ (Task.mark_done s id).1.rows,
      matchNotDone r id = false := by
    rw [hrows]
    intro r hr
    obtain ⟨r0, hr0, heq⟩ := List.mem_map.mp hr
    by_cases hm : matchNotDone r0 id = true
    · rw [if_pos hm] at heq
      rw [← heq]
      simp [matchNotDone, sqlEqZero]
    · rw [if_neg hm] at heq
      rw [← heq]
      cases hm2 : sqlIdEq r0.id id
      · simp [matchNotDone, hm2]
      · exact absurd (by simp [matchNotDone, hm2, hall r0 hr0 hm2]) hm
  obtain ⟨hfalse, hfix⟩ := mark_done_no_match _ id hnomatch
  refine ⟨?_, ?_, hfalse, hfix, fun s' op r' h => applyOp_row_origin s' op r' h⟩
  · simp only [Task.mark_done, decide_eq_true_eq, List.countP_pos_iff]
    exact hex
  · rw [hrows]
    intro r hr hid
    obtain ⟨r0, hr0, heq⟩ := List.mem_map.mp hr
    by_cases hm : matchNotDone r0 id = true
    · rw [if_pos hm] at heq
      rw [← heq]
    · rw [if_neg hm] at heq
      subst heq
      exact absurd (by simp [matchNotDone, hid, hall r0 hr0 hid]) hm

/-- Witness for C7 on `demoStore`, task 1. -/
theorem done_monotone_idempotent_witness :
    (Task.mark_done demoStore 1).2 = true ∧
    (Task.mark_done (Task.mark_done demoStore 1).1 1).2 = false :=
  ⟨(done_monotone_idempotent demoStore 1
      ⟨⟨.integer 1, .text "open task", .integer 0, .text "2024-12-07 14:30:15"⟩,
        by decide, by decide⟩ (by decide)).1,
   (done_monotone_idempotent demoStore 1
      ⟨⟨.integer 1, .text "open task", .integer 0, .text "2024-12-07 14:30:15"⟩,
        by decide, by decide⟩ (by decide)).2.2.1⟩

/-! ### C8: frame — at most one task mutated per command -/

theorem countP_le_one_of_pairwise_ne (l : List RawRow) (id : Int)
    (h : l.Pairwise (fun a b => a.id ≠ b.id)) :
    l.countP (fun x => sqlIdEq x.id id) ≤ 1 := by
  induction l with
  | nil => simp
  | cons a l ih =>
      rw [List.countP_cons]
      obtain ⟨ha, hl⟩ := List.pairwise_cons.mp h
      by_cases hm : sqlIdEq a.id id = true
      · have h0 : l.countP (fun x => sqlIdEq x.id id) = 0 := by
          rw [List.countP_eq_zero]
          intro x hx hxm
          exact ha x hx (((sqlIdEq_eq_true a.id id).mp hm).trans
            ((sqlIdEq_eq_true x.id id).mp hxm).symm)
        simp [h0, hm]
      · have hc := ih hl
        simp only [Bool.not_eq_true] at hm
        simp [hm]
        exact hc

theorem countP_match_le (l : List RawRow) (id : Int) :
    l.countP (fun x => matchNotDone x id) ≤
      l.countP (fun x => sqlIdEq x.id id) := by
  induction l with
  | nil => simp
  | cons a l ih =>
      rw [List.countP_cons, List.countP_cons]
      by_cases hm : matchNotDone a id = true
      · have : sqlIdEq a.id id = true := by
          have := hm
          simp only [matchNotDone, Bool.and_eq_true] at this
          exact this.1
        simp [hm, this]
        omega
      · simp only [Bool.not_eq_true] at hm
        simp [hm]
        split <;> omega

/-- C8.  `Delete` keeps every row with a different id exactly as it was
(and removes nothing else); `MarkDone` keeps every row with a different id
in place and unchanged; `Add` leaves every pre-existing row in place and
unchanged; `List` does not mutate the store at all; and on a store
satisfying the PRIMARY KEY invariant, at most one row matches a Delete and
at most one row matches a MarkDone. -/
theorem frame_one_task (s : Store) (id : Int) (d : String) (now : DateTime)
    (i : Nat) (r : RawRow) :
    (Task.remove s id).1.rows = s.rows.filter (fun x => !sqlIdEq x.id id) ∧
    (s.rows[i]? = some r → sqlIdEq r.id id = false →
      (Task.mark_done s id).1.rows[i]? = some r) ∧
    (s.rows[i]? = some r → (Task.add s d now).1.rows[i]? = some r) ∧
    (handle_db_operations s .list now).1 = s ∧
    (Store.Wf s →
      s.rows.countP (fun x => sqlIdEq x.id id) ≤ 1 ∧
      s.rows.countP (fun x => matchNotDone x id) ≤ 1) := by
  refine ⟨rfl, ?_, ?_, ?_, ?_⟩
  · intro hi hne
    have hrows : (Task.mark_done s id).1.rows = s.rows.map (fun x =>
        if matchNotDone x id then { x with done := .integer 1 } else x) := rfl
    rw [hrows, List.getElem?_map, hi]
    simp [matchNotDone, hne]
  · intro hi
    have hlt : i < s.rows.length := by
      have := List.getElem?_eq_some_iff.mp hi
      exact this.1
    have hrows : (Task.add s d now).1.rows = s.rows ++
        [⟨.integer (s.seq + 1), .text d, .integer 0,
          .text (formatBirth now)⟩] := rfl
    rw [hrows, List.getElem?_append_left hlt]
    exact hi
  · rcases hEmpty : (Task.list s).isEmpty <;>
      simp [handle_db_operations, Task.create_default, hEmpty]
  · intro hwf
    have h1 := countP_le_one_of_pairwise_ne s.rows id hwf.2
    exact ⟨h1, le_trans (countP_match_le s.rows id) h1⟩

theorem demoStore_wf : demoStore.Wf := by
  constructor
  · intro r hr
    simp only [demoStore, List.mem_cons, List.not_mem_nil, or_false] at hr
    rcases hr with rfl | rfl
    · exact ⟨1, rfl, by decide⟩
    · exact ⟨2, rfl, by decide⟩
  · decide

/-- Witness for C8 on `demoStore`: removing / marking id 1 leaves row 2
(index 1) untouched, and at most one row matches. -/
theorem frame_one_task_witness :
    (Task.remove demoStore 1).1.rows =
      demoStore.rows.filter (fun x => !sqlIdEq x.id 1) ∧
    (Task.mark_done demoStore 1).1.rows[1]? =
      some ⟨.integer 2, .text "closed task", .integer 1,
        .text "2024-12-07 14:30:16"⟩ ∧
    demoStore.rows.countP (fun x => sqlIdEq x.id 1) ≤ 1 :=
  ⟨(frame_one_task demoStore 1 "x" ⟨2024, 1, 1, 0, 0, 0⟩ 1
      ⟨.integer 2, .text "closed task", .integer 1,
        .text "2024-12-07 14:30:16"⟩).1,
   (frame_one_task demoStore 1 "x" ⟨2024, 1, 1, 0, 0, 0⟩ 1
      ⟨.integer 2, .text "closed task", .integer 1,
        .text "2024-12-07 14:30:16"⟩).2.1 (by decide) (by decide),
   ((frame_one_task demoStore 1 "x" ⟨2024, 1, 1, 0, 0, 0⟩ 1
      ⟨.integer 2, .text "closed task", .integer 1,
        .text "2024-12-07 14:30:16"⟩).2.2.2.2 demoStore_wf).1⟩

/-! ### C6: descriptions — the non-empty claim fails; immutability holds -/

/-- Counterexample to C6 as stated: the command layer accepts `add` with
the empty string (clap performs no non-empty validation, the store none
beyond NOT NULL), and the resulting reachable store has a row whose
description is the empty text. -/
theorem empty_description_reachable :
    (handle_db_operations Store.empty (Commands.add "")
      ⟨2024, 12, 7, 14, 30, 15⟩).1.rows.map RawRow.description =
      [SqlValue.text ""] := by
  decide

/-- C6 amended: the store records the caller's description verbatim —
empty or not — and no operation ever rewrites a stored description
(`Add` only appends, `MarkDone` only touches the done column, `Remove`
only drops whole rows). -/
theorem description_immutable (s : Store) (d : String) (now : DateTime)
    (id : Int) :
    (Task.add s d now).1.rows.map RawRow.description =
      s.rows.map RawRow.description ++ [SqlValue.text d] ∧
    (Task.mark_done s id).1.rows.map RawRow.description =
      s.rows.map RawRow.description ∧
    (∀ r ∈ (Task.remove s id).1.rows, r ∈ s.rows) := by
  refine ⟨?_, ?_, ?_⟩
  · have hrows : (Task.add s d now).1.rows = s.rows ++
        [⟨.integer (s.seq + 1), .text d, .integer 0,
          .text (formatBirth now)⟩] := rfl
    rw [hrows, List.map_append]
    rfl
  · have hrows : (Task.mark_done s id).1.rows = s.rows.map (fun x =>
        if matchNotDone x id then { x with done := .integer 1 } else x) := rfl
    rw [hrows, List.map_map]
    exact List.map_congr_left (fun r hr => by
      by_cases hm : matchNotDone r id = true <;> simp [hm])
  · intro r hr
    have hr' : r ∈ s.rows.filter (fun x => !sqlIdEq x.id id) := hr
    exact List.mem_of_mem_filter hr'

/-- Witness for the amended C6: an empty description is stored verbatim
and survives a mark-done unchanged. -/
theorem description_immutable_witness :
    (Task.add demoStore "" ⟨2024, 1, 1, 0, 0, 0⟩).1.rows.map
        RawRow.description =
      demoStore.rows.map RawRow.description ++ [SqlValue.text ""] ∧
    (Task.mark_done demoStore 1).1.rows.map RawRow.description =
      demoStore.rows.map RawRow.description :=
  ⟨(description_immutable demoStore "" ⟨2024, 1, 1, 0, 0, 0⟩ 1).1,
   (description_immutable demoStore "" ⟨2024, 1, 1, 0, 0, 0⟩ 1).2.1⟩

/-! ### C5: id uniqueness and monotonicity over operation sequences -/

theorem runOps_cons_add (s : Store) (d : String) (now : DateTime)
    (ops : List Op) :
    runOps s (.add d now :: ops) =
      ((runOps (Task.add s d now).1 ops).1,
        (Task.add s d now).2 :: (runOps (Task.add s d now).1 ops).2) := by
  simp [runOps, Task.add]

theorem runOps_cons_remove (s : Store) (id : Int) (ops : List Op) :
    runOps s (.remove id :: ops) = runOps (applyOp s (.remove id)) ops := rfl

theorem runOps_cons_markDone (s : Store) (id : Int) (ops : List Op) :
    runOps s (.markDone id :: ops) = runOps (applyOp s (.markDone id)) ops :=
  rfl

/-- Along any operation sequence the AUTOINCREMENT counter never
decreases, every returned id lies strictly above the counter's starting
value (and at or below its final value), and the returned ids are strictly
increasing in order of insertion. -/
theorem runOps_ids_spec (ops : List Op) (s : Store) :
    s.seq ≤ (runOps s ops).1.seq ∧
    (∀ i ∈ (runOps s ops).2, s.seq < i ∧ i ≤ (runOps s ops).1.seq) ∧
    (runOps s ops).2.Pairwise (fun a b => a < b) := by
  induction ops generalizing s with
  | nil => simp [runOps]
  | cons op ops ih =>
      cases op with
      | add d now =>
          obtain ⟨hseq, hmem, hpw⟩ := ih (Task.add s d now).1
          have hseq1 : (Task.add s d now).1.seq = s.seq + 1 := rfl
          have hid : (Task.add s d now).2 = s.seq + 1 := rfl
          rw [runOps_cons_add]
          dsimp only
          refine ⟨by omega, ?_, ?_⟩
          · intro i hi
            rcases List.mem_cons.mp hi with rfl | hi
            · constructor <;> omega
            · have := hmem i hi
              constructor <;> omega
          · rw [List.pairwise_cons]
            refine ⟨fun b hb => ?_, hpw⟩
            have := hmem b hb
            omega
      | remove id =>
          have hseq0 : (applyOp s (.remove id)).seq = s.seq := rfl
          rw [runOps_cons_remove]
          obtain ⟨hseq, hmem, hpw⟩ := ih (applyOp s (.remove id))
          exact ⟨by omega, fun i hi => by have := hmem i hi; omega, hpw⟩
      | markDone id =>
          have hseq0 : (applyOp s (.markDone id)).seq = s.seq := rfl
          rw [runOps_cons_markDone]
          obtain ⟨hseq, hmem, hpw⟩ := ih (applyOp s (.markDone id))
          exact ⟨by omega, fun i hi => by have := hmem i hi; omega, hpw⟩

/-- Every operation preserves the PRIMARY KEY/AUTOINCREMENT invariant. -/
theorem Wf_applyOp (s : Store) (op : Op) (h : s.Wf) : (applyOp s op).Wf := by
  obtain ⟨hb, hp⟩ := h
  cases op with
  | add d now =>
      constructor
      · intro r hr
        have hr' : r ∈ s.rows ++
            [⟨.integer (s.seq + 1), .text d, .integer 0,
              .text (formatBirth now)⟩] := hr
        rcases List.mem_append.mp hr' with hm | hm
        · obtain ⟨i, hi, hle⟩ := hb r hm
          exact ⟨i, hi, by show i ≤ s.seq + 1; omega⟩
        · rw [List.mem_singleton.mp hm]
          exact ⟨s.seq + 1, rfl, le_refl _⟩
      · have hrw : (applyOp s (.add d now)).rows = s.rows ++
            [⟨.integer (s.seq + 1), .text d, .integer 0,
              .text (formatBirth now)⟩] := rfl
        rw [hrw, List.pairwise_append]
        refine ⟨hp, List.pairwise_singleton _ _, ?_⟩
        intro a ha b hbm
        rw [List.mem_singleton.mp hbm]
        obtain ⟨i, hi, hle⟩ := hb a ha
        rw [hi]
        intro hcon
        have : i = s.seq + 1 := SqlValue.integer.inj hcon
        omega
  | remove id =>
      constructor
      · intro r hr
        have hr' : r ∈ s.rows.filter (fun x => !sqlIdEq x.id id) := hr
        exact hb r (List.mem_of_mem_filter hr')
      · have hrw : (applyOp s (.remove id)).rows =
            s.rows.filter (fun x => !sqlIdEq x.id id) := rfl
        rw [hrw]
        exact hp.sublist (List.filter_sublist _)
  | markDone id =>
      constructor
      · intro r hr
        have hr' : r ∈ s.rows.map (fun x =>
            if matchNotDone x id then { x with done := .integer 1 } else x) :=
          hr
        obtain ⟨r0, hr0, heq⟩ := List.mem_map.mp hr'
        obtain ⟨j, hj, hle⟩ := hb r0 hr0
        refine ⟨j, ?_, hle⟩
        rw [← heq]
        by_cases hm : matchNotDone r0 id = true <;> simp [hm, hj]
      · have hrw : (applyOp s (.markDone id)).rows = s.rows.map (fun x =>
            if matchNotDone x id then { x with done := .integer 1 } else x) :=
          rfl
        rw [hrw, List.pairwise_map]
        refine hp.imp ?_
        intro a b hne
        by_cases hma : matchNotDone a id = true <;>
          by_cases hmb : matchNotDone b id = true <;>
          simp [hma, hmb, hne]

theorem Wf_runOps (ops : List Op) (s : Store) (h : s.Wf) :
    (runOps s ops).1.Wf := by
  induction ops generalizing s with
  | nil => simpa [runOps]
  | cons op ops ih =>
      cases op with
      | add d now =>
          rw [runOps_cons_add]
          exact ih _ (Wf_applyOp s (.add d now) h)
      | remove id =>
          rw [runOps_cons_remove]
          exact ih _ (Wf_applyOp s (.remove id) h)
      | markDone id =>
          rw [runOps_cons_markDone]
          exact ih _ (Wf_applyOp s (.markDone id) h)

/-- C5.  Starting from a fresh table, along any sequence of operations the
ids returned by the inserts are strictly increasing in insertion order
(hence pairwise distinct, each later insert strictly above every earlier
one even across interleaved deletes — an id, once assigned, is never handed
out again because the counter never decreases); moreover every reachable
table state keeps row ids pairwise distinct and at or below the counter. -/
theorem ids_unique_monotone (ops : List Op) :
    (runOps Store.empty ops).2.Pairwise (fun a b => a < b) ∧
    (∀ i ∈ (runOps Store.empty ops).2,
      0 < i ∧ i ≤ (runOps Store.empty ops).1.seq) ∧
    Store.Wf (runOps Store.empty ops).1 := by
  obtain ⟨hseq, hmem, hpw⟩ := runOps_ids_spec ops Store.empty
  exact ⟨hpw, fun i hi => hmem i hi,
    Wf_runOps ops Store.empty ⟨by simp [Store.empty], by simp [Store.empty]⟩⟩

/-- Witness for C5: insert, delete the row, insert again — the second
insert returns 2, not the freed 1. -/
theorem ids_unique_monotone_witness :
    (runOps Store.empty
      [.add "first" ⟨2024, 1, 1, 0, 0, 0⟩, .remove 1,
       .add "second" ⟨2024, 1, 1, 0, 0, 1⟩]).2.Pairwise
      (fun a b => a < b) :=
  (ids_unique_monotone
    [.add "first" ⟨2024, 1, 1, 0, 0, 0⟩, .remove 1,
     .add "second" ⟨2024, 1, 1, 0, 0, 1⟩]).1

/-! ### C10: declining database creation -/

/-- C10.  With the database file absent and the user's first valid answer
being N, `run` prints the farewell and returns `Ok` (success exit code)
without creating the database file and without performing any store
operation: the store is untouched. -/
theorem decline_skips_everything (dbPath : String) (stdin : List String)
    (command : Commands) (s : Store) (now : DateTime)
    (h : ask_user_confirmation stdin = some false) :
    run dbPath false stdin command s now =
      some ⟨s, [s!"Database not found at {dbPath}", "Goodbye!"],
        false, false⟩ := by
  simp [run, h]

/-- Witness for C10: a concrete declined run (one invalid answer, then
`n`). -/
theorem decline_skips_everything_witness :
    run demoPath false ["maybe", "n"] (Commands.add "x") demoStore
      ⟨2024, 1, 1, 0, 0, 0⟩ =
      some ⟨demoStore, [s!"Database not found at {demoPath}", "Goodbye!"],
        false, false⟩ :=
  decline_skips_everything demoPath ["maybe", "n"] (Commands.add "x")
    demoStore ⟨2024, 1, 1, 0, 0, 0⟩ (by decide)

end Todo
